import Mathlib

/-!
# Verification of the CloudflareSpeedTest measurement core

Shallow embedding of the repository's measurement and filtering pipeline
(`utils/csv.go`, `task/tcping.go`, `task/ip.go`, `task/download.go`) together
with proofs of the behavioural claims about it.

Modelling conventions:
* Go `time.Duration` values are `Int` nanoseconds.
* Go `float32` / `float64` arithmetic is modelled over `Rat` (exact rational
  arithmetic); the claims under consideration are about control flow and
  ordering, not about rounding of binary floating point.
* Go slices are `List`s; in-place mutation is explicit state passing.
* Network effects (TCP dials, HTTP downloads) are oracles passed as explicit
  function arguments.
* `sort.Sort` is modelled by `List.insertionSort` against the embedded `Less`
  relation: the model realises exactly `sort.Sort`'s contract (a permutation
  of the input that is pairwise ordered by the `Less` relation).
-/

namespace CFST

/-! ## Data model (`utils/csv.go`) -/

/-- Embedding of `utils.PingData`.  The `ip` field stands for the textual
address (`*net.IPAddr`); `delay` is in nanoseconds. -/
structure PingData where
  ip : String
  sended : Int
  received : Int
  delay : Int
  colo : String
deriving DecidableEq, Repr

/-- Embedding of `utils.CloudflareIPData`: a `PingData` plus the lazily
cached loss rate and the download speed (bytes/second). -/
structure CloudflareIPData where
  pd : PingData
  lossRate : Rat
  downloadSpeed : Rat
deriving DecidableEq, Repr

/-- `maxDelay` constant of `utils/csv.go` (9999 ms) in nanoseconds. -/
def maxDelayNs : Int := 9999 * 1000000

/-- `minDelay` constant of `utils/csv.go` (0 ms). -/
def minDelayNs : Int := 0

/-- `maxLossRate` constant of `utils/csv.go`. -/
def maxLossRateQ : Rat := 1

/-- Embedding of `(*CloudflareIPData).getLossRate` from `utils/csv.go`:
if the cached `lossRate` field is zero it is (re)computed as
`(Sended - Received) / Sended` and stored; the stored value is returned.
State passing makes the mutation of the receiver explicit. -/
def getLossRate (cf : CloudflareIPData) : Rat × CloudflareIPData :=
  if cf.lossRate = 0 then
    let r : Rat := ((cf.pd.sended : Rat) - (cf.pd.received : Rat)) / (cf.pd.sended : Rat)
    (r, { cf with lossRate := r })
  else
    (cf.lossRate, cf)

/-- The loss-rate value observed by a caller of `getLossRate`. -/
def rateVal (cf : CloudflareIPData) : Rat := (getLossRate cf).1

/-- Overwrite the probe counters of a record (models a hypothetical later
mutation of the `Sended` / `Received` fields). -/
def setCounts (cf : CloudflareIPData) (s r : Int) : CloudflareIPData :=
  { cf with pd := { cf.pd with sended := s, received := r } }

/-! ## Delay and loss-rate filters (`utils/csv.go`) -/

/-- The `for` loop of `PingDelaySet.FilterDelay`: stop at the first record
whose delay exceeds the upper bound, skip records below the lower bound,
keep the rest. -/
def filterDelayLoop (inMax inMin : Int) : List CloudflareIPData → List CloudflareIPData
  | [] => []
  | v :: rest =>
    if inMax < v.pd.delay then []
    else if v.pd.delay < inMin then filterDelayLoop inMax inMin rest
    else v :: filterDelayLoop inMax inMin rest

/-- Embedding of `PingDelaySet.FilterDelay`, with the global configuration
`InputMaxDelay` / `InputMinDelay` passed explicitly. -/
def FilterDelay (inMax inMin : Int) (s : List CloudflareIPData) : List CloudflareIPData :=
  if maxDelayNs < inMax ∨ inMin < minDelayNs then s
  else if inMax = maxDelayNs ∧ inMin = minDelayNs then s
  else filterDelayLoop inMax inMin s

/-- The `for` loop of `PingDelaySet.FilterLossRate`: stop at the first record
whose loss rate exceeds the ceiling; kept records carry the loss-rate cache
written by the `getLossRate` call (the loop variable is a copy). -/
def filterLossLoop (ceil : Rat) : List CloudflareIPData → List CloudflareIPData
  | [] => []
  | v :: rest =>
    let p := getLossRate v
    if ceil < p.1 then []
    else p.2 :: filterLossLoop ceil rest

/-- Embedding of `PingDelaySet.FilterLossRate`, with the global configuration
`InputMaxLossRate` passed explicitly. -/
def FilterLossRate (ceil : Rat) (s : List CloudflareIPData) : List CloudflareIPData :=
  if maxLossRateQ ≤ ceil then s
  else filterLossLoop ceil s

/-! ## Sorting of `PingDelaySet` (`utils/csv.go`, used at the end of
`Ping.Run` in `task/tcping.go`) -/

/-- Embedding of `PingDelaySet.Less`: lower loss rate first, then lower
delay.  `getLossRate`'s cache write never changes the observed value, so the
pure `rateVal` is the value the comparison sees. -/
def pingLess (a b : CloudflareIPData) : Bool :=
  if rateVal a = rateVal b then decide (a.pd.delay < b.pd.delay)
  else decide (rateVal a < rateVal b)

/-- The ordering guaranteed between adjacent elements of the output of
`sort.Sort(PingDelaySet)`: for `a` placed before `b`, `Less b a` is false. -/
def pingRel (a b : CloudflareIPData) : Prop := pingLess b a = false

instance : DecidableRel pingRel := fun a b =>
  inferInstanceAs (Decidable (pingLess b a = false))

theorem pingRel_iff (a b : CloudflareIPData) :
    pingRel a b ↔
      rateVal a < rateVal b ∨ (rateVal a = rateVal b ∧ a.pd.delay ≤ b.pd.delay) := by
  unfold pingRel pingLess
  by_cases h : rateVal b = rateVal a
  · rw [if_pos h, decide_eq_false_iff_not, not_lt]
    constructor
    · intro hd
      exact Or.inr ⟨h.symm, hd⟩
    · rintro (hlt | ⟨_, hd⟩)
      · rw [h] at hlt
        exact absurd hlt (lt_irrefl _)
      · exact hd
  · rw [if_neg h, decide_eq_false_iff_not, not_lt]
    constructor
    · intro hle
      exact Or.inl (lt_of_le_of_ne hle (fun e => h e.symm))
    · rintro (hlt | ⟨he, _⟩)
      · exact le_of_lt hlt
      · exact absurd he.symm h

instance : IsTotal CloudflareIPData pingRel where
  total a b := by
    rw [pingRel_iff, pingRel_iff]
    rcases lt_trichotomy (rateVal a) (rateVal b) with h | h | h
    · exact Or.inl (Or.inl h)
    · rcases le_total a.pd.delay b.pd.delay with hd | hd
      · exact Or.inl (Or.inr ⟨h, hd⟩)
      · exact Or.inr (Or.inr ⟨h.symm, hd⟩)
    · exact Or.inr (Or.inl h)

instance : IsTrans CloudflareIPData pingRel where
  trans a b c hab hbc := by
    rw [pingRel_iff] at hab hbc ⊢
    rcases hab with h1 | ⟨h1, d1⟩
    · rcases hbc with h2 | ⟨h2, _⟩
      · exact Or.inl (h1.trans h2)
      · exact Or.inl (h2 ▸ h1)
    · rcases hbc with h2 | ⟨h2, d2⟩
      · exact Or.inl (h1 ▸ h2)
      · exact Or.inr ⟨h1.trans h2, d1.trans d2⟩

/-- Model of `sort.Sort(p.csv)` at the end of `Ping.Run`: a sorting function
meeting `sort.Sort`'s contract for `PingDelaySet.Less`. -/
def sortPing (s : List CloudflareIPData) : List CloudflareIPData :=
  List.insertionSort pingRel s

/-! ## `task/tcping.go`: configuration defaulting -/

/-- `maxRoutine` constant of `task/tcping.go`. -/
def maxRoutine : Int := 1000

/-- `defaultRoutines` constant of `task/tcping.go`. -/
def defaultRoutines : Int := 200

/-- `defaultPort` constant of `task/tcping.go`. -/
def defaultPort : Int := 443

/-- `defaultPingTimes` constant of `task/tcping.go`. -/
def defaultPingTimes : Int := 4

/-- Embedding of `checkPingDefault` from `task/tcping.go`, acting on the
globals `Routines`, `TCPPort`, `PingTimes` passed and returned explicitly. -/
def checkPingDefault (routines tcpPort pingTimes : Int) : Int × Int × Int :=
  (if routines ≤ 0 then defaultRoutines else routines,
   if tcpPort ≤ 0 ∨ 65535 ≤ tcpPort then defaultPort else tcpPort,
   if pingTimes ≤ 0 then defaultPingTimes else pingTimes)

/-! ## Download speed test (`task/download.go`) -/

/-- Download-phase configuration: the globals `URL`, `Timeout`, `Disable`,
`TestCount`, `MinSpeed` of `task/download.go` plus `utils.Debug`. -/
structure DownloadCfg where
  url : String
  timeoutNs : Int
  disable : Bool
  testCount : Int
  minSpeed : Rat
  debug : Bool
deriving DecidableEq, Repr

/-- `defaultURL` constant of `task/download.go`. -/
def defaultURL : String := "https://cf.xiu2.xyz/url"

/-- Embedding of `checkDownloadDefault` from `task/download.go`. -/
def checkDownloadDefault (c : DownloadCfg) : DownloadCfg :=
  { c with
    url := if c.url = "" then defaultURL else c.url
    timeoutNs := if c.timeoutNs ≤ 0 then 10 * 1000000000 else c.timeoutNs
    testCount := if c.testCount ≤ 0 then 10 else c.testCount
    minSpeed := if c.minSpeed ≤ 0 then 0 else c.minSpeed }

/-- The per-candidate mutation performed inside the download loop: store the
measured speed and backfill the location tag when it is still empty.
`m` is the pair returned by `downloadHandler`. -/
def attachOne (m : Rat × String) (v : CloudflareIPData) : CloudflareIPData :=
  { v with
    downloadSpeed := m.1
    pd := if v.pd.colo = "" then { v.pd with colo := m.2 } else v.pd }

/-- The `for i := 0; i < testNum; i++` loop of `TestDownloadSpeed`.
`measure i` is the oracle for `downloadHandler(ipSet[i].IP)`; `minB` is
`MinSpeed*1024*1024`; `tcount` is the (possibly lowered) `TestCount`;
the first `Nat` argument is the remaining iteration budget (`testNum - i`).
Returns the mutated `ipSet` together with the accumulated `speedSet`. -/
def dlLoop (measure : Nat → Rat × String) (minB : Rat) (tcount : Nat) :
    Nat → Nat → List CloudflareIPData → List CloudflareIPData →
    List CloudflareIPData × List CloudflareIPData
  | 0, _, ipSet, speedSet => (ipSet, speedSet)
  | fuel + 1, i, ipSet, speedSet =>
    match ipSet.get? i with
    | none => (ipSet, speedSet)
    | some v =>
      let v' := attachOne (measure i) v
      let ipSet' := ipSet.set i v'
      if minB ≤ (measure i).1 then
        let speedSet' := speedSet ++ [v']
        if speedSet'.length = tcount then (ipSet', speedSet')
        else dlLoop measure minB tcount fuel (i + 1) ipSet' speedSet'
      else dlLoop measure minB tcount fuel (i + 1) ipSet' speedSet

/-- The `testNum` computation of `TestDownloadSpeed`: test every candidate
when fewer candidates than `TestCount` exist or a minimum speed is set. -/
def testNumOf (tc : Int) (minSpeed : Rat) (n : Nat) : Nat :=
  if (n : Int) < tc ∨ 0 < minSpeed then n else tc.toNat

/-- The ordering guaranteed between elements of the output of
`sort.Sort(DownloadSpeedSet)` (`DownloadSpeedSet.Less`: higher speed first):
for `a` placed before `b`, `Less b a` is false. -/
def speedRel (a b : CloudflareIPData) : Prop :=
  decide (a.downloadSpeed < b.downloadSpeed) = false

instance : DecidableRel speedRel := fun a b =>
  inferInstanceAs (Decidable (decide (a.downloadSpeed < b.downloadSpeed) = false))

/-- Model of `sort.Sort(speedSet)` at the end of `TestDownloadSpeed`. -/
def sortSpeed (s : List CloudflareIPData) : List CloudflareIPData :=
  List.insertionSort speedRel s

/-- Embedding of `TestDownloadSpeed` from `task/download.go`.  The network
is abstracted by `measure : Nat → Rat × String`, giving the speed and
location tag `downloadHandler` would return for candidate `i`. -/
def TestDownloadSpeed (cfg : DownloadCfg) (ipSet : List CloudflareIPData)
    (measure : Nat → Rat × String) : List CloudflareIPData :=
  let c := checkDownloadDefault cfg
  if c.disable then ipSet
  else if ipSet.length = 0 then []
  else
    let testNum := testNumOf c.testCount c.minSpeed ipSet.length
    let tcount : Nat := if (testNum : Int) < c.testCount then testNum else c.testCount.toNat
    let r := dlLoop measure (c.minSpeed * 1024 * 1024) tcount testNum 0 ipSet []
    let speedSet :=
      if c.minSpeed = 0 then r.1
      else if c.debug ∧ r.2.length = 0 then r.1
      else r.2
    sortSpeed speedSet

/-! ## Range expansion (`task/ip.go`)

`net.IP` values are lists of byte values (16 entries for a full address,
4 for an IPv4 CIDR mask/network as produced by `net.ParseCIDR`).  The
process-wide random source is an oracle `stream : Nat → Nat` consumed one
value per `rand.Intn` call, together with a running call counter; `rand.Intn n`
returning a value in `[0, n)` is modelled as `stream k % n`.  The unbounded
`for r.ipNet.Contains(...)` loops run on an explicit fuel budget. -/

/-- Embedding of `isIPv4` from `task/ip.go`: an address string is IPv4 iff
it contains a dot. -/
def isIPv4 (s : String) : Bool := s.data.contains '.'

/-- Embedding of `(*IPRanges).fixIP` from `task/ip.go`: a specification
without a `/` gets `/32` (IPv4) or `/128` (IPv6) appended; otherwise the
mask is the suffix starting at the first `/`.  Returns the fixed
specification together with the stored `r.mask`. -/
def fixIP (s : String) : String × String :=
  if s.data.contains '/' = false then
    let mask := if isIPv4 s then "/32" else "/128"
    (s ++ mask, mask)
  else
    (s, String.mk (s.data.dropWhile (fun c => decide (c ≠ '/'))))

/-- Embedding of `randIPEndWith` from `task/ip.go`; `rnd` is the value drawn
from the random source when `num ≠ 0`. -/
def randIPEndWith (rnd : Nat) (num : Nat) : Nat :=
  if num = 0 then 0 else rnd % num

/-- The derived state of `IPRanges` after `parseCIDR`: the mask suffix, the
first (cursor) address as 16 bytes, and the masked network plus mask bytes
of `r.ipNet`. -/
structure IPRanges where
  mask : String
  firstIP : List Nat
  netIP : List Nat
  netMask : List Nat
deriving DecidableEq, Repr

/-- `net.IPNet.Contains`: byte-wise `ip & mask == network`. -/
def maskedEq (netIP netMask ip : List Nat) : Bool :=
  decide (List.zipWith (fun mb ib => Nat.land mb ib) netMask ip = netIP)

/-- The 16-byte form `net.IPv4(a, b, c, d)` produces. -/
def v4Bytes (a b c d : Nat) : List Nat :=
  [0, 0, 0, 0, 0, 0, 0, 0, 0, 0, 255, 255, a, b, c, d]

/-- The host count of `(*IPRanges).getIPRange`: the 4 mask bytes are
complemented (`m[i] ^= v`, i.e. `255 - v` for byte values), read as a
big-endian 32-bit number via a hex round-trip through `strconv.ParseInt`
(which clamps to `MaxInt32` on range error), and capped at 255. -/
def hostsOf (mask : List Nat) : Nat :=
  let raw := (mask.map (fun v => 255 - v)).foldl (fun acc v => acc * 256 + v) 0
  let total := min raw 2147483647
  if 255 < total then 255 else total

/-- Embedding of `(*IPRanges).getIPRange`: minimum last octet and usable
host count. -/
def getIPRange (r : IPRanges) : Nat × Nat :=
  (Nat.land (r.firstIP.getD 15 0) (r.netMask.getD 3 0), hostsOf r.netMask)

/-- The `for r.ipNet.Contains(r.firstIP)` loop of `(*IPRanges).chooseIPv4`,
walking the cursor octets `(a, b, c)` with byte carry; `d` is the (fixed)
last octet of the cursor used only by the containment check; `k` indexes the
random stream. -/
def chooseIPv4Loop (testAll : Bool) (stream : Nat → Nat) (netIP netMask : List Nat)
    (minIP hosts : Nat) :
    Nat → Nat → Nat → Nat → Nat → Nat → List (List Nat)
  | 0, _, _, _, _, _ => []
  | fuel + 1, k, a, b, c, d =>
    if maskedEq netIP netMask [a, b, c, d] then
      let emitted :=
        if testAll then
          (List.range (hosts + 1)).map (fun i => v4Bytes a b c ((i + minIP) % 256))
        else
          [v4Bytes a b c ((minIP + randIPEndWith (stream k) hosts) % 256)]
      let k' := if testAll ∨ hosts = 0 then k else k + 1
      let c' := (c + 1) % 256
      let b' := if c' = 0 then (b + 1) % 256 else b
      let a' := if c' = 0 ∧ b' = 0 then (a + 1) % 256 else a
      emitted ++ chooseIPv4Loop testAll stream netIP netMask minIP hosts fuel k' a' b' c' d
    else []

/-- Embedding of `(*IPRanges).chooseIPv4`: a `/32` range emits exactly the
first address; otherwise the range is walked with per-octet randomisation
(or exhaustively when `TestAll` is set). -/
def chooseIPv4 (r : IPRanges) (testAll : Bool) (stream : Nat → Nat) (fuel : Nat) :
    List (List Nat) :=
  if r.mask = "/32" then [r.firstIP]
  else
    let mh := getIPRange r
    chooseIPv4Loop testAll stream r.netIP r.netMask mh.1 mh.2 fuel 0
      (r.firstIP.getD 12 0) (r.firstIP.getD 13 0) (r.firstIP.getD 14 0) (r.firstIP.getD 15 0)

/-- The inner `for i := 13; i >= 0; i--` climb of `(*IPRanges).chooseIPv6`:
add a random byte at index `i` (wrapping), stop at the first index whose new
value is no smaller than its old value, or after index 0. -/
def chooseIPv6Climb (stream : Nat → Nat) : Nat → Nat → List Nat → List Nat × Nat
  | k, 0, cur =>
    let t := cur.getD 0 0
    (cur.set 0 ((t + randIPEndWith (stream k) 255) % 256), k + 1)
  | k, i + 1, cur =>
    let t := cur.getD (i + 1) 0
    let v := (t + randIPEndWith (stream k) 255) % 256
    let cur' := cur.set (i + 1) v
    if t ≤ v then (cur', k + 1) else chooseIPv6Climb stream (k + 1) i cur'

/-- The `for r.ipNet.Contains(r.firstIP)` loop of `(*IPRanges).chooseIPv6`:
randomise the last two bytes, record a copy of the cursor, then climb the
higher-order bytes with random increments. -/
def chooseIPv6Loop (stream : Nat → Nat) (netIP netMask : List Nat) :
    Nat → Nat → List Nat → List (List Nat)
  | 0, _, _ => []
  | fuel + 1, k, cur =>
    if maskedEq netIP netMask cur then
      let cur2 := (cur.set 15 (randIPEndWith (stream k) 255)).set 14
        (randIPEndWith (stream (k + 1)) 255)
      let step := chooseIPv6Climb stream (k + 2) 13 cur2
      cur2 :: chooseIPv6Loop stream netIP netMask fuel step.2 step.1
    else []

/-- Embedding of `(*IPRanges).chooseIPv6`: a `/128` range emits exactly the
first address; otherwise addresses are scattered across the range. -/
def chooseIPv6 (r : IPRanges) (stream : Nat → Nat) (fuel : Nat) : List (List Nat) :=
  if r.mask = "/128" then [r.firstIP]
  else chooseIPv6Loop stream r.netIP r.netMask fuel 0 r.firstIP

/-! ## Location tag extraction -/

/-- `http.Header.Get` over a header set modelled as name/value pairs. -/
def headerGet (h : List (String × String)) (name : String) : String :=
  match h.find? (fun p => decide (p.1 = name)) with
  | some p => p.2
  | none => ""

/-- The trailing dash-segment of a value (the part after the last `-`,
or the whole value when no `-` occurs). -/
def lastDashSegment (s : String) : String :=
  String.mk ((s.data.reverse.takeWhile (fun c => decide (c ≠ '-'))).reverse)

/-- The leading alphabetic run of a value. -/
def leadingAlpha (s : String) : String :=
  String.mk (s.data.takeWhile Char.isAlpha)

/-- Modelled from the spec: the Location Tag Extractor `getHeaderColo`
(its source file, `task/httping.go`, is not under `src/`; only its tests and
callers are).  Per §4.3 it is a pure function over the response header set
with first-match-wins precedence: the ray-identifier header (`cf-ray`, tag =
trailing dash-segment), the point-of-presence header (`x-amz-cf-pop`, tag =
leading alphabetic run up to a digit), the served-by header (`x-served-by`,
tag = trailing dash-segment of the whole value), the region-code header
(`x-77-pop`, the embedded uppercase 2-letter country code), and the
server-identity patterns of two vendors (`server: BunnyCDN-…` → the leading
letters after the vendor prefix; `x-id-fe` → leading alphabetic run,
uppercased).  Unrecognised or absent headers yield the empty string. -/
def getHeaderColo (h : List (String × String)) : String :=
  let ray := headerGet h "cf-ray"
  if ray ≠ "" then lastDashSegment ray
  else
    let pop := headerGet h "x-amz-cf-pop"
    if pop ≠ "" then leadingAlpha pop
    else
      let sb := headerGet h "x-served-by"
      if sb ≠ "" then lastDashSegment sb
      else
        let rc := headerGet h "x-77-pop"
        if rc ≠ "" then String.mk (rc.data.filter Char.isUpper)
        else
          let srv := headerGet h "server"
          if srv.data.take 9 = "BunnyCDN-".data then
            leadingAlpha (String.mk (srv.data.drop 9))
          else
            let fe := headerGet h "x-id-fe"
            if fe ≠ "" then String.mk ((leadingAlpha fe).data.map Char.toUpper)
            else ""

/-! ## Helper lemmas -/

/-- A record as created by the prober (`tcpingHandler`): loss-rate cache and
download speed still zero-valued. -/
def freshRecord (ip : String) (s r delayNs : Int) : CloudflareIPData :=
  ⟨⟨ip, s, r, delayNs, ""⟩, 0, 0⟩

theorem filterDelayLoop_eq (inMax inMin : Int) (s : List CloudflareIPData) :
    filterDelayLoop inMax inMin s =
      (s.takeWhile (fun v => decide (v.pd.delay ≤ inMax))).filter
        (fun v => decide (inMin ≤ v.pd.delay)) := by
  induction s with
  | nil => rfl
  | cons v rest ih =>
    by_cases h1 : inMax < v.pd.delay
    · have hd : decide (v.pd.delay ≤ inMax) = false := decide_eq_false (not_le.mpr h1)
      simp [filterDelayLoop, if_pos h1, List.takeWhile_cons, hd]
    · have hd : decide (v.pd.delay ≤ inMax) = true := decide_eq_true (not_lt.mp h1)
      by_cases h2 : v.pd.delay < inMin
      · have hm : decide (inMin ≤ v.pd.delay) = false := decide_eq_false (not_le.mpr h2)
        simp [filterDelayLoop, if_neg h1, if_pos h2, List.takeWhile_cons, hd,
          List.filter_cons, hm, ih]
      · have hm : decide (inMin ≤ v.pd.delay) = true := decide_eq_true (not_lt.mp h2)
        simp [filterDelayLoop, if_neg h1, if_neg h2, List.takeWhile_cons, hd,
          List.filter_cons, hm, ih]

theorem filterLossLoop_eq (ceil : Rat) (s : List CloudflareIPData) :
    filterLossLoop ceil s =
      (s.takeWhile (fun v => decide (rateVal v ≤ ceil))).map (fun v => (getLossRate v).2) := by
  induction s with
  | nil => rfl
  | cons v rest ih =>
    by_cases h1 : ceil < (getLossRate v).1
    · have hd : decide (rateVal v ≤ ceil) = false := decide_eq_false (not_le.mpr h1)
      simp [filterLossLoop, if_pos h1, List.takeWhile_cons, hd]
    · have hd : decide (rateVal v ≤ ceil) = true := decide_eq_true (not_lt.mp h1)
      simp [filterLossLoop, if_neg h1, List.takeWhile_cons, hd, ih]

/-- `checkDownloadDefault` leaves an already-valid configuration unchanged. -/
theorem checkDownloadDefault_id (c : DownloadCfg) (h1 : c.url ≠ "") (h2 : 0 < c.timeoutNs)
    (h3 : 0 < c.testCount) (h4 : 0 < c.minSpeed) : checkDownloadDefault c = c := by
  unfold checkDownloadDefault
  rw [if_neg h1, if_neg (not_le.mpr h2), if_neg (not_le.mpr h3), if_neg (not_le.mpr h4)]

/-- What the download loop does when every measurement is below the speed
threshold: it walks `fuel` candidates starting at index `i`, attaching their
measured data. -/
def attachRange (measure : Nat → Rat × String) :
    Nat → Nat → List CloudflareIPData → List CloudflareIPData
  | 0, _, ipSet => ipSet
  | fuel + 1, i, ipSet =>
    match ipSet.get? i with
    | none => ipSet
    | some v => attachRange measure fuel (i + 1) (ipSet.set i (attachOne (measure i) v))

/-- When no measured speed reaches the threshold, the download loop attaches
every measurement and collects nothing. -/
theorem dlLoop_all_below (measure : Nat → Rat × String) (minB : Rat) (tc : Nat)
    (h : ∀ k, (measure k).1 < minB) :
    ∀ (fuel i : Nat) (ipSet : List CloudflareIPData),
      dlLoop measure minB tc fuel i ipSet [] = (attachRange measure fuel i ipSet, []) := by
  intro fuel
  induction fuel with
  | zero => intro i ipSet; rfl
  | succ f ih =>
    intro i ipSet
    rw [dlLoop, attachRange]
    cases hg : ipSet.get? i with
    | none => rfl
    | some v =>
      have hlt : ¬ minB ≤ (measure i).1 := not_le.mpr (h i)
      simp only [if_neg hlt]
      exact ih (i + 1) (ipSet.set i (attachOne (measure i) v))

/-! ## Concrete material used by the claim theorems -/

/-- Records at 50 ms, 150 ms and 300 ms, in that input order. -/
def delayExample : List CloudflareIPData :=
  [freshRecord "a" 4 4 (50 * 1000000), freshRecord "b" 4 4 (150 * 1000000),
   freshRecord "c" 4 4 (300 * 1000000)]

/-- Records at 0%, 25% and 50% loss, in ascending order. -/
def lossExample : List CloudflareIPData :=
  [freshRecord "a" 4 4 0, freshRecord "b" 4 3 0, freshRecord "c" 4 2 0]

section ClaimProofs

attribute [local semireducible] Rat.mul Rat.inv Rat.sub Rat.add

/-- C2 counterexample: a record whose first computed loss rate is zero
(4 sent, 4 received) leaves the zero cache sentinel in place, so after the
counters are mutated to 4 sent / 2 received a later `getLossRate` call
recomputes and returns 1/2 instead of the first call's value 0 — the rate
is not "never recomputed". -/
theorem getLossRate_zero_cache_cex :
    (getLossRate (freshRecord "z" 4 4 0)).1 = 0 ∧
    (getLossRate (setCounts (getLossRate (freshRecord "z" 4 4 0)).2 4 2)).1 = mkRat 1 2 ∧
    mkRat 1 2 ≠ (0 : Rat) := by decide

/-- C2 (amended): for a fresh Measurement Record the first `getLossRate`
call returns `(Sended - Received) / Sended`; every later call returns that
same cached value under mutation of the counters provided the first
computed value was nonzero (a zero first value leaves the cache sentinel
unset and is recomputed). -/
theorem getLossRate_first_and_nonzero_cached (cf : CloudflareIPData) (h0 : cf.lossRate = 0) :
    (getLossRate cf).1 =
      ((cf.pd.sended : Rat) - (cf.pd.received : Rat)) / (cf.pd.sended : Rat) ∧
    ∀ s r : Int, (getLossRate cf).1 ≠ 0 →
      (getLossRate (setCounts (getLossRate cf).2 s r)).1 = (getLossRate cf).1 := by
  constructor
  · unfold getLossRate
    rw [if_pos h0]
  · intro s r hne
    unfold getLossRate at hne ⊢
    rw [if_pos h0] at hne ⊢
    simp only at hne
    unfold setCounts
    simp only
    split
    next hzero => exact absurd hzero hne
    next => rfl

/-- Witness for C2 (amended) at a concrete record with nonzero loss. -/
theorem getLossRate_cached_witness :
    (freshRecord "w" 4 3 0).lossRate = 0 ∧
    (getLossRate (setCounts (getLossRate (freshRecord "w" 4 3 0)).2 17 2)).1 =
      (getLossRate (freshRecord "w" 4 3 0)).1 :=
  ⟨rfl, (getLossRate_first_and_nonzero_cached (freshRecord "w" 4 3 0) rfl).2 17 2 (by decide)⟩

/-- C3: for a delay window inside (and distinct from) the default range,
`FilterDelay` keeps the longest prefix of records whose delay does not
exceed the maximum (stopping the scan at the first record above it, never
admitting any later record) and among those keeps exactly the records at or
above the minimum; in particular window [100 ms, 200 ms] over records at
50 ms, 150 ms, 300 ms yields exactly the 150 ms record. -/
theorem filterDelay_window_scan (inMax inMin : Int) (s : List CloudflareIPData)
    (h1 : minDelayNs ≤ inMin) (h2 : inMax ≤ maxDelayNs)
    (h3 : ¬(inMax = maxDelayNs ∧ inMin = minDelayNs)) :
    FilterDelay inMax inMin s =
      (s.takeWhile (fun v => decide (v.pd.delay ≤ inMax))).filter
        (fun v => decide (inMin ≤ v.pd.delay)) ∧
    FilterDelay (200 * 1000000) (100 * 1000000) delayExample =
      [freshRecord "b" 4 4 (150 * 1000000)] := by
  constructor
  · unfold FilterDelay
    rw [if_neg (by push_neg; exact ⟨not_lt.mp (not_lt.mpr h2), h1⟩), if_neg h3]
    exact filterDelayLoop_eq inMax inMin s
  · decide

/-- Witness for C3 at the window [100 ms, 200 ms] and the example records. -/
theorem filterDelay_window_witness :
    FilterDelay (200 * 1000000) (100 * 1000000) delayExample =
      (delayExample.takeWhile (fun v => decide (v.pd.delay ≤ 200 * 1000000))).filter
        (fun v => decide (100 * 1000000 ≤ v.pd.delay)) :=
  (filterDelay_window_scan (200 * 1000000) (100 * 1000000) delayExample
    (by decide) (by decide) (by decide)).1

/-- C5: `FilterLossRate` is the identity when the ceiling is at least 1.0,
and otherwise keeps (in order) the longest prefix of records whose loss
rate is at most the ceiling, stopping the whole scan at the first record
above it; ceiling 0.25 over records at 0%, 25%, 50% loss keeps exactly the
0% and 25% records. -/
theorem filterLossRate_characterization :
    (∀ (ceil : Rat) (s : List CloudflareIPData),
      FilterLossRate ceil s =
        if maxLossRateQ ≤ ceil then s
        else (s.takeWhile (fun v => decide (rateVal v ≤ ceil))).map
          (fun v => (getLossRate v).2)) ∧
    (FilterLossRate (mkRat 1 4) lossExample).map (fun v => v.pd.ip) = ["a", "b"] := by
  constructor
  · intro ceil s
    unfold FilterLossRate
    by_cases h : maxLossRateQ ≤ ceil
    · rw [if_pos h, if_pos h]
    · rw [if_neg h, if_neg h]
      exact filterLossLoop_eq ceil s
  · decide

/-- C10: a configured window outside the default bounds (maximum above
9999 ms, or minimum below 0) makes `FilterDelay` return its input
unchanged — widening the window past the defaults disables delay
filtering entirely. -/
theorem filterDelay_outside_default_noop (inMax inMin : Int) (s : List CloudflareIPData)
    (h : maxDelayNs < inMax ∨ inMin < minDelayNs) :
    FilterDelay inMax inMin s = s := by
  unfold FilterDelay
  rw [if_pos h]

/-- Witness for C10 with a 10000 ms maximum over the example records. -/
theorem filterDelay_outside_default_witness :
    FilterDelay (10000 * 1000000) 0 delayExample = delayExample :=
  filterDelay_outside_default_noop (10000 * 1000000) 0 delayExample (by decide)

/-- The spec's sorting example, in input order: (50% loss, 100 ms),
(0% loss, 50 ms), (0% loss, 200 ms). -/
def pingExample : List CloudflareIPData :=
  [freshRecord "cc" 4 2 (100 * 1000000), freshRecord "aa" 4 4 (50 * 1000000),
   freshRecord "bb" 4 4 (200 * 1000000)]

/-- C4: in the delay-ordered result set produced by sorting a
`PingDelaySet` (as `Ping.Run` does at the end of its run), any earlier
record has strictly lower loss rate than any later one, or equal loss rate
and no larger delay. -/
theorem sortPing_loss_delay_invariant (s : List CloudflareIPData) (i j : Nat)
    (a b : CloudflareIPData) (hij : i < j)
    (ha : (sortPing s).get? i = some a) (hb : (sortPing s).get? j = some b) :
    rateVal a < rateVal b ∨ (rateVal a = rateVal b ∧ a.pd.delay ≤ b.pd.delay) := by
  have hs : List.Sorted pingRel (sortPing s) := List.sorted_insertionSort pingRel s
  obtain ⟨hi, hae⟩ := List.get?_eq_some.mp ha
  obtain ⟨hj, hbe⟩ := List.get?_eq_some.mp hb
  have hrel := (List.pairwise_iff_get.mp hs) ⟨i, hi⟩ ⟨j, hj⟩ hij
  rw [hae, hbe] at hrel
  exact (pingRel_iff a b).mp hrel

/-- Witness for C4 at the spec's sorting example (positions 0 and 2 of the
sorted output). -/
theorem sortPing_invariant_witness :
    rateVal (freshRecord "aa" 4 4 (50 * 1000000)) <
        rateVal (freshRecord "cc" 4 2 (100 * 1000000)) ∨
      (rateVal (freshRecord "aa" 4 4 (50 * 1000000)) =
          rateVal (freshRecord "cc" 4 2 (100 * 1000000)) ∧
        (freshRecord "aa" 4 4 (50 * 1000000)).pd.delay ≤
          (freshRecord "cc" 4 2 (100 * 1000000)).pd.delay) :=
  sortPing_loss_delay_invariant pingExample 0 2 _ _ (by decide) (by decide) (by decide)

/-- C7 counterexample: a concurrency setting of 1001, above
`maxRoutine = 1000`, is left unchanged by `checkPingDefault` instead of
being reset to the default 200. -/
theorem checkPingDefault_above_max_cex :
    maxRoutine < 1001 ∧ (checkPingDefault 1001 443 4).1 = 1001 ∧
      (1001 : Int) ≠ defaultRoutines := by decide

/-- C7 (amended): `checkPingDefault` resets a non-positive concurrency
limit, an out-of-range port (≤ 0 or ≥ 65535) and a non-positive probe count
to their defaults (200, 443, 4) and leaves every other value — including a
concurrency limit above `maxRoutine` — unchanged. -/
theorem checkPingDefault_characterization (r p t : Int) :
    (r ≤ 0 → (checkPingDefault r p t).1 = defaultRoutines) ∧
    (0 < r → (checkPingDefault r p t).1 = r) ∧
    (p ≤ 0 ∨ 65535 ≤ p → (checkPingDefault r p t).2.1 = defaultPort) ∧
    (0 < p → p < 65535 → (checkPingDefault r p t).2.1 = p) ∧
    (t ≤ 0 → (checkPingDefault r p t).2.2 = defaultPingTimes) ∧
    (0 < t → (checkPingDefault r p t).2.2 = t) := by
  unfold checkPingDefault
  refine ⟨fun h => ?_, fun h => ?_, fun h => ?_, fun h1 h2 => ?_, fun h => ?_, fun h => ?_⟩
  · rw [if_pos h]
  · rw [if_neg (not_le.mpr h)]
  · rw [if_pos h]
  · have hc : ¬(p ≤ 0 ∨ 65535 ≤ p) := by omega
    rw [if_neg hc]
  · rw [if_pos h]
  · rw [if_neg (not_le.mpr h)]

/-- Witness for C7 (amended): in-range port and probe count stay, and a
concurrency limit above the maximum stays as well. -/
theorem checkPingDefault_witness :
    (checkPingDefault 1001 8443 6).1 = 1001 ∧
    (checkPingDefault 1001 8443 6).2.1 = 8443 ∧
    (checkPingDefault 1001 8443 6).2.2 = 6 :=
  ⟨(checkPingDefault_characterization 1001 8443 6).2.1 (by decide),
   (checkPingDefault_characterization 1001 8443 6).2.2.2.1 (by decide) (by decide),
   (checkPingDefault_characterization 1001 8443 6).2.2.2.2.2 (by decide)⟩

/-- A `/32` range as produced by `parseCIDR "1.1.1.1/32"`. -/
def r32ex : IPRanges :=
  ⟨"/32", v4Bytes 1 1 1 1, [1, 1, 1, 1], [255, 255, 255, 255]⟩

/-- A `/128` range as produced by `parseCIDR "2606:4700::1/128"`. -/
def r128ex : IPRanges :=
  ⟨"/128", [38, 6, 71, 0, 0, 0, 0, 0, 0, 0, 0, 0, 0, 0, 0, 1],
   [38, 6, 71, 0, 0, 0, 0, 0, 0, 0, 0, 0, 0, 0, 0, 1],
   [255, 255, 255, 255, 255, 255, 255, 255, 255, 255, 255, 255, 255, 255, 255, 255]⟩

/-- C8: a range specification without a mask suffix gets `/32` (IPv4,
detected by a dot) or `/128` (IPv6) appended by `fixIP`, and expanding a
single-address range (`/32` for `chooseIPv4`, `/128` for `chooseIPv6`)
emits exactly the first address, independently of the random stream. -/
theorem fixIP_single_address_expansion (s : String) (h : s.data.contains '/' = false) :
    fixIP s = (s ++ (if isIPv4 s then "/32" else "/128"),
      if isIPv4 s then "/32" else "/128") ∧
    (∀ (r : IPRanges) (testAll : Bool) (stream : Nat → Nat) (fuel : Nat),
      r.mask = "/32" → chooseIPv4 r testAll stream fuel = [r.firstIP]) ∧
    (∀ (r : IPRanges) (stream : Nat → Nat) (fuel : Nat),
      r.mask = "/128" → chooseIPv6 r stream fuel = [r.firstIP]) := by
  refine ⟨?_, ?_, ?_⟩
  · unfold fixIP
    rw [if_pos h]
  · intro r testAll stream fuel hm
    unfold chooseIPv4
    rw [if_pos hm]
  · intro r stream fuel hm
    unfold chooseIPv6
    rw [if_pos hm]

/-- Witness for C8: `1.1.1.1` gets `/32` appended, and concrete `/32` and
`/128` ranges expand to exactly their own address. -/
theorem fixIP_single_address_witness :
    fixIP "1.1.1.1" = ("1.1.1.1" ++ (if isIPv4 "1.1.1.1" then "/32" else "/128"),
      if isIPv4 "1.1.1.1" then "/32" else "/128") ∧
    chooseIPv4 r32ex false (fun k => k) 9 = [r32ex.firstIP] ∧
    chooseIPv6 r128ex (fun k => k + 3) 9 = [r128ex.firstIP] :=
  ⟨(fixIP_single_address_expansion "1.1.1.1" (by decide)).1,
   (fixIP_single_address_expansion "1.1.1.1" (by decide)).2.1 r32ex false (fun k => k) 9 rfl,
   (fixIP_single_address_expansion "1.1.1.1" (by decide)).2.2 r128ex (fun k => k + 3) 9 rfl⟩

/-- C9: the location-tag extractor on the claim's example header sets:
a BunnyCDN server identity yields the country code `TW`, an
`x-amz-cf-pop` value yields its leading alphabetic run `SIN`, an
`x-served-by` value yields the trailing dash-segment `FRA` of the whole
value, and header sets with no recognised header yield the empty string. -/
theorem getHeaderColo_examples :
    getHeaderColo [("server", "BunnyCDN-TW1-1121")] = "TW" ∧
    getHeaderColo [("x-amz-cf-pop", "SIN52-P1")] = "SIN" ∧
    getHeaderColo [("x-served-by", "cache-fra-etou8220141-FRA")] = "FRA" ∧
    getHeaderColo [("server", "nginx")] = "" ∧
    getHeaderColo [] = "" := by decide

/-- Download configuration of the C6 example: desired success count 5,
no speed threshold, downloads enabled. -/
def dlCfgC6 : DownloadCfg := ⟨"u", 1000000000, false, 5, 0, false⟩

/-- Three candidates for the C6 example. -/
def dlSetC6 : List CloudflareIPData :=
  [freshRecord "a" 4 4 0, freshRecord "b" 4 4 0, freshRecord "c" 4 4 0]

/-- Measurement oracle of the C6 example: candidate `i` downloads at
`i + 1` bytes/second. -/
def measureC6 : Nat → Rat × String := fun i => (mkRat ((i : Int) + 1) 1, "")

/-- C6: when fewer candidates than `TestCount` exist, or a positive minimum
speed is configured, the download queue length `testNum` is the whole input
length; with 3 candidates, desired count 5 and no threshold it is 3, and
the example run measures every one of the 3 candidates (each measured
speed appears in the result). -/
theorem testNum_all_candidates (tc : Int) (ms : Rat) (n : Nat)
    (h : (n : Int) < tc ∨ 0 < ms) :
    testNumOf tc ms n = n ∧
    testNumOf 5 0 3 = 3 ∧
    (TestDownloadSpeed dlCfgC6 dlSetC6 measureC6).map (fun v => v.downloadSpeed) =
      [mkRat 3 1, mkRat 2 1, mkRat 1 1] := by
  refine ⟨?_, by decide, by decide⟩
  unfold testNumOf
  rw [if_pos h]

/-- Witness for C6 on both hypothesis branches: input shorter than the
desired count, and a positive speed threshold. -/
theorem testNum_all_candidates_witness :
    testNumOf 5 0 3 = 3 ∧ testNumOf 2 (mkRat 1 1) 7 = 7 :=
  ⟨(testNum_all_candidates 5 0 3 (Or.inl (by decide))).1,
   (testNum_all_candidates 2 (mkRat 1 1) 7 (Or.inr (by decide))).1⟩

/-- Download configuration of the C1 counterexample: positive minimum
speed (1 MB/s), downloads enabled, debug mode off (the default). -/
def dlCfgC1 : DownloadCfg := ⟨"u", 1000000000, false, 10, 1, false⟩

/-- Measurement oracle that always reports zero throughput. -/
def measureZero : Nat → Rat × String := fun _ => (0, "")

/-- C1 counterexample: with a positive minimum speed, downloads enabled,
debug off and a non-empty input whose only candidate measures below the
threshold, `TestDownloadSpeed` returns the empty set, not the measured
candidates. -/
theorem testDownloadSpeed_empty_result_cex :
    (0 : Rat) < dlCfgC1.minSpeed ∧ dlCfgC1.debug = false ∧ dlCfgC1.disable = false ∧
    (measureZero 0).1 < dlCfgC1.minSpeed * 1024 * 1024 ∧
    TestDownloadSpeed dlCfgC1 [freshRecord "a" 4 4 0] measureZero = [] := by decide

/-- C1 (amended): with a valid configuration carrying a positive minimum
speed, a non-empty candidate set none of whose measured speeds reaches the
threshold, and debug mode enabled, `TestDownloadSpeed` falls back to
returning all measured candidates (the input with every measured speed and
backfilled location tag attached, reordered only by the final sort). -/
theorem testDownloadSpeed_debug_fallback_returns_all (cfg : DownloadCfg)
    (ipSet : List CloudflareIPData) (measure : Nat → Rat × String)
    (hurl : cfg.url ≠ "") (ht : 0 < cfg.timeoutNs) (htc : 0 < cfg.testCount)
    (hms : 0 < cfg.minSpeed) (hdis : cfg.disable = false) (hdbg : cfg.debug = true)
    (hne : ipSet.length ≠ 0)
    (hbelow : ∀ k, (measure k).1 < cfg.minSpeed * 1024 * 1024) :
    (TestDownloadSpeed cfg ipSet measure).Perm
      (attachRange measure ipSet.length 0 ipSet) := by
  have htn : testNumOf cfg.testCount cfg.minSpeed ipSet.length = ipSet.length := by
    unfold testNumOf
    rw [if_pos (Or.inr hms)]
  have hdl := dlLoop_all_below measure (cfg.minSpeed * 1024 * 1024)
    (if ((ipSet.length : Nat) : Int) < cfg.testCount then ipSet.length else cfg.testCount.toNat)
    hbelow ipSet.length 0 ipSet
  simp only [TestDownloadSpeed, checkDownloadDefault_id cfg hurl ht htc hms, hdis,
    Bool.false_eq_true, if_false, if_neg hne, htn, hdl, if_neg (ne_of_gt hms), hdbg,
    List.length_nil, eq_self_iff_true, true_and, and_true, if_true]
  exact List.perm_insertionSort speedRel _

/-- Witness for C1 (amended): one candidate below a 1 MB/s threshold with
debug on; the result is a permutation of the measured input. -/
theorem testDownloadSpeed_debug_fallback_witness :
    (TestDownloadSpeed ⟨"u", 1, false, 2, 1, true⟩ [freshRecord "a" 4 4 0] measureZero).Perm
      (attachRange measureZero 1 0 [freshRecord "a" 4 4 0]) :=
  testDownloadSpeed_debug_fallback_returns_all ⟨"u", 1, false, 2, 1, true⟩
    [freshRecord "a" 4 4 0] measureZero (by decide) (by decide) (by decide) (by decide)
    rfl rfl (by decide) (fun _ => show (0 : Rat) < 1 * 1024 * 1024 by decide)

end ClaimProofs

end CFST
